import Mathlib

/-!
Verification of `placement/handlers/allocation_candidate.py`: the
version-negotiated serialization and query-parsing protocol of the
`GET /allocation_candidates` endpoint.

Python dicts are embedded as insertion-ordered association lists
(`List (String × α)`); assignment to a dict key updates the first
occurrence in place or appends a new binding at the end, exactly as
CPython dicts behave.
-/

namespace Placement

/-- Ordered-dict assignment `d[k] = v`: update the first binding of `k`
in place, otherwise append `(k, v)` at the end. -/
def upsert {α : Type} (k : String) (v : α) : List (String × α) → List (String × α)
  | [] => [(k, v)]
  | (k₁, v₁) :: rest =>
    if k₁ = k then (k, v) :: rest else (k₁, v₁) :: upsert k v rest

/-- defaultdict access-and-mutate `f(d[k])` where a missing key is first
bound to the default `d`: modify the first binding of `k` in place,
otherwise append `(k, f d)` at the end. -/
def dictModify {α : Type} (k : String) (d : α) (f : α → α) :
    List (String × α) → List (String × α)
  | [] => [(k, f d)]
  | (k₁, v₁) :: rest =>
    if k₁ = k then (k₁, f v₁) :: rest else (k₁, v₁) :: dictModify k d f rest

/-- Dict lookup `d.get(k)`: value at the first binding of `k`, if any. -/
def lookupAssoc {α : Type} (k : String) : List (String × α) → Option α
  | [] => none
  | (k₁, v₁) :: rest => if k₁ = k then some v₁ else lookupAssoc k rest

/-- A resource provider, identified by its uuid
(`rp_obj.ResourceProvider` as used by this handler). -/
structure ResourceProvider where
  uuid : String
deriving DecidableEq

/-- One `(resource_provider, resource_class, amount)` triple of an
allocation request (`rp_obj.AllocationRequestResource`). -/
structure ResourceRequest where
  resource_provider : ResourceProvider
  resource_class : String
  amount : Nat
deriving DecidableEq

/-- One candidate solution: an ordered collection of resource requests
(`rp_obj.AllocationRequest`). -/
structure AllocationRequest where
  resource_requests : List ResourceRequest
deriving DecidableEq

/-- A trait name wrapper (`rp_obj.Trait` as used by this handler). -/
structure Trait where
  name : String
deriving DecidableEq

/-- Per-class inventory figures of one provider summary
(`rp_obj.ProviderSummaryResource`). -/
structure ProviderSummaryResource where
  resource_class : String
  capacity : Nat
  used : Nat
deriving DecidableEq

/-- Per-provider snapshot annotating candidates
(`rp_obj.ProviderSummary`). -/
structure ProviderSummary where
  resource_provider : ResourceProvider
  resources : List ProviderSummaryResource
  traits : List Trait
deriving DecidableEq

/-- The matching engine result (`rp_obj.AllocationCandidates`). -/
structure AllocationCandidates where
  allocation_requests : List AllocationRequest
  provider_summaries : List ProviderSummary
deriving DecidableEq

/-- Modelled from the spec: `microversion.Version` (the microversion
module is not under src/) — a `(major, minor)` ordered pair with the
lexicographic total order. -/
structure Version where
  major : Nat
  minor : Nat
deriving DecidableEq

/-- Modelled from the spec: `Version.matches(min_version)` (the
microversion module is not under src/) — negotiation is the
"version ≥ threshold" comparison on `(major, minor)` pairs. -/
def Version.matches (v : Version) (m : Nat × Nat) : Bool :=
  decide (m.1 < v.major ∨ (m.1 = v.major ∧ m.2 ≤ v.minor))

/-- The spec's reading of a version strictly below a threshold:
`v < (major, minor)` lexicographically. -/
def versionBelow (v : Version) (m : Nat × Nat) : Bool :=
  decide (v.major < m.1 ∨ (v.major = m.1 ∧ v.minor < m.2))

/-- The `{"resources": {...}}` object nested under each provider uuid in
the grouped-by-provider (microversion ≥ 1.12) allocation format. -/
structure RPResources where
  resources : List (String × Nat)
deriving DecidableEq

/-- One element of `allocation_requests` in the grouped-by-provider
format: `{"allocations": {rp_uuid: {"resources": {...}}, ...}}`. -/
structure AllocationsDictObj where
  allocations : List (String × RPResources)
deriving DecidableEq

/-- One element of the `"allocations"` array in the flat-list (pre-1.12)
format: `{"resource_provider": {"uuid": U}, "resources": {...}}`. -/
structure AllocListEntry where
  resource_provider : ResourceProvider
  resources : List (String × Nat)
deriving DecidableEq

/-- One element of `allocation_requests` in the flat-list format:
`{"allocations": [...]}`. -/
structure AllocationsListObj where
  allocations : List AllocListEntry
deriving DecidableEq

/-- The inner loop of `_transform_allocation_requests_dict`: the
defaultdict grouping
`rp_resources[rr.resource_provider.uuid]["resources"][rr.resource_class] = rr.amount`
over one AllocationRequest's resource requests. -/
def rpResourcesOf (rrs : List ResourceRequest) : List (String × RPResources) :=
  rrs.foldl
    (fun acc rr =>
      dictModify rr.resource_provider.uuid ⟨[]⟩
        (fun ro => ⟨upsert rr.resource_class rr.amount ro.resources⟩) acc)
    []

/-- The inner loop of `_transform_allocation_requests_list`: the
defaultdict grouping
`provider_resources[rr.resource_provider.uuid][rr.resource_class] = rr.amount`
over one AllocationRequest's resource requests. -/
def providerResourcesOf (rrs : List ResourceRequest) :
    List (String × List (String × Nat)) :=
  rrs.foldl
    (fun acc rr =>
      dictModify rr.resource_provider.uuid []
        (fun res_dict => upsert rr.resource_class rr.amount res_dict) acc)
    []

/-- `_transform_allocation_requests_dict`: turn the supplied list of
AllocationRequest objects into a list of allocations dicts keyed by
resource provider uuid (the microversion ≥ 1.12 wire format). -/
def _transform_allocation_requests_dict (alloc_reqs : List AllocationRequest) :
    List AllocationsDictObj :=
  alloc_reqs.map (fun ar => ⟨rpResourcesOf ar.resource_requests⟩)

/-- `_transform_allocation_requests_list`: turn the supplied list of
AllocationRequest objects into a list of dicts holding an
`"allocations"` array (the pre-1.12 wire format): each
`(rp_uuid, resources)` pair of the grouping becomes one array element. -/
def _transform_allocation_requests_list (alloc_reqs : List AllocationRequest) :
    List AllocationsListObj :=
  alloc_reqs.map (fun ar =>
    ⟨(providerResourcesOf ar.resource_requests).map (fun p => ⟨⟨p.1⟩, p.2⟩)⟩)

/-- The `{"capacity": c, "used": u}` object of a provider summary. -/
structure CapacityUsed where
  capacity : Nat
  used : Nat
deriving DecidableEq

/-- One value of the `provider_summaries` mapping: a `"resources"` dict
and, only when traits are included, a `"traits"` list (`none` embeds the
absence of the `"traits"` key in the Python dict). -/
structure ProviderSummaryEntry where
  resources : List (String × CapacityUsed)
  traits : Option (List String)
deriving DecidableEq

/-- `_transform_provider_summaries`: turn the supplied list of
ProviderSummary objects into a dict keyed by resource provider uuid; the
`"traits"` key only shows up when `include_traits` is true. The
`resources` dict comprehension is a fold of dict assignments; the two
Python statements `ret[uuid] = {"resources": resources}` and (guarded)
`ret[uuid]["traits"] = [t.name for t in ps.traits]` are the `upsert` and
the `dictModify`. -/
def _transform_provider_summaries (p_sums : List ProviderSummary)
    (include_traits : Bool) : List (String × ProviderSummaryEntry) :=
  p_sums.foldl
    (fun ret ps =>
      let resources := ps.resources.foldl
        (fun acc psr => upsert psr.resource_class ⟨psr.capacity, psr.used⟩ acc) []
      let ret₁ := upsert ps.resource_provider.uuid ⟨resources, none⟩ ret
      if include_traits then
        dictModify ps.resource_provider.uuid ⟨[], none⟩
          (fun e => { e with traits := some (ps.traits.map Trait.name) }) ret₁
      else ret₁)
    []

/-- The two mutually incompatible shapes of `allocation_requests`. -/
inductive TransformedAllocationRequests where
  | dictFormat (reqs : List AllocationsDictObj)
  | listFormat (reqs : List AllocationsListObj)
deriving DecidableEq

/-- The body produced by `_transform_allocation_candidates`:
`{"allocation_requests": ..., "provider_summaries": ...}`. -/
structure TransformedCandidates where
  allocation_requests : TransformedAllocationRequests
  provider_summaries : List (String × ProviderSummaryEntry)
deriving DecidableEq

/-- `_transform_allocation_candidates`: pick the allocation-request wire
format by `want_version.matches((1, 12))`, include traits in provider
summaries exactly when `want_version.matches((1, 17))`. -/
def _transform_allocation_candidates (alloc_cands : AllocationCandidates)
    (want_version : Version) : TransformedCandidates :=
  let a_reqs :=
    if want_version.matches (1, 12) then
      TransformedAllocationRequests.dictFormat
        (_transform_allocation_requests_dict alloc_cands.allocation_requests)
    else
      TransformedAllocationRequests.listFormat
        (_transform_allocation_requests_list alloc_cands.allocation_requests)
  let include_traits := want_version.matches (1, 17)
  { allocation_requests := a_reqs
    provider_summaries :=
      _transform_provider_summaries alloc_cands.provider_summaries include_traits }

/-- The four query schemas that `list_allocation_candidates` can select
(`placement.schemas.allocation_candidate`; their contents are opaque to
this handler, which only chooses among them). -/
inductive GetSchema where
  | GET_SCHEMA_1_10
  | GET_SCHEMA_1_16
  | GET_SCHEMA_1_17
  | GET_SCHEMA_1_21
deriving DecidableEq

/-- The schema-selection chain at the top of `list_allocation_candidates`:
default `GET_SCHEMA_1_10`, overridden by the first threshold the version
matches, tested in descending order 1.21, 1.17, 1.16. -/
def select_get_schema (want_version : Version) : GetSchema :=
  if want_version.matches (1, 21) then GetSchema.GET_SCHEMA_1_21
  else if want_version.matches (1, 17) then GetSchema.GET_SCHEMA_1_17
  else if want_version.matches (1, 16) then GetSchema.GET_SCHEMA_1_16
  else GetSchema.GET_SCHEMA_1_10

/-- A parsed resource group request, produced by
`util.parse_qs_request_groups`; its structure is opaque to this handler,
which passes the parsed groups through to the matching engine. -/
structure RequestGroup where
  suffix : String
  resources : List (String × Nat)
deriving DecidableEq

/-- Exceptions the matching engine
(`rp_obj.AllocationCandidates.get_by_requests`) may raise:
`exception.ResourceClassNotFound`, `exception.TraitNotFound`, or any
other failure, each carrying its message text. -/
inductive EngineExc where
  | resourceClassNotFound (msg : String)
  | traitNotFound (msg : String)
  | other (msg : String)
deriving DecidableEq

/-- Exceptions escaping `list_allocation_candidates`:
`webob.exc.HTTPBadRequest` (a client error, HTTP 400), or an engine
exception this layer does not catch (an opaque server error). -/
inductive HandlerExc where
  | httpBadRequest (msg : String)
  | uncaught (e : EngineExc)
deriving DecidableEq

/-- The parts of the webob response that `list_allocation_candidates`
sets. The body is kept as the structured `TransformedCandidates` (the
source serializes it with `jsonutils.dumps`, which is outside src/). -/
structure Response where
  body : TransformedCandidates
  content_type : String
  cache_control : Option String
  last_modified_set : Bool
deriving DecidableEq

/-- `list_allocation_candidates`. The two collaborators that are not
under src/ are passed in as functions and modelled from the spec:
`validate` is `util.validate_query_params` applied to this request's raw
query parameters (returns the validation-failure message when it raises
its client error, `none` when the parameters pass); `get_by_requests` is
`rp_obj.AllocationCandidates.get_by_requests` already applied to the
context (returns the candidate set or raises an `EngineExc`).
`parsed_requests` is the result of `util.parse_qs_request_groups` and
`limit_qs` the list of values of the `limit` query parameter (JSONschema
has confirmed integer form, so values are embedded as naturals).

Returns the outcome together with a trace of the engine invocation:
`none` when `get_by_requests` was never called, otherwise the
`(requests, limit)` arguments it was called with. -/
def list_allocation_candidates
    (validate : GetSchema → Option String)
    (get_by_requests : List RequestGroup → Option Nat → Except EngineExc AllocationCandidates)
    (want_version : Version) (parsed_requests : List RequestGroup)
    (limit_qs : List Nat) :
    Except HandlerExc Response × Option (List RequestGroup × Option Nat) :=
  let get_schema := select_get_schema want_version
  match validate get_schema with
  | some msg => (Except.error (HandlerExc.httpBadRequest msg), none)
  | none =>
    let limit : Option Nat := limit_qs.head?
    match get_by_requests parsed_requests limit with
    | Except.error (EngineExc.resourceClassNotFound msg) =>
      (Except.error (HandlerExc.httpBadRequest
        ("Invalid resource class in resources parameter: " ++ msg)),
       some (parsed_requests, limit))
    | Except.error (EngineExc.traitNotFound msg) =>
      (Except.error (HandlerExc.httpBadRequest msg),
       some (parsed_requests, limit))
    | Except.error (EngineExc.other msg) =>
      (Except.error (HandlerExc.uncaught (EngineExc.other msg)),
       some (parsed_requests, limit))
    | Except.ok cands =>
      let trx_cands := _transform_allocation_candidates cands want_version
      (Except.ok
        { body := trx_cands
          content_type := "application/json"
          cache_control :=
            if want_version.matches (1, 15) then some "no-cache" else none
          last_modified_set := want_version.matches (1, 15) },
       some (parsed_requests, limit))

/-! Observation functions used to state the properties. These follow the
spec's reading of the wire formats (the facts a serialized candidate
describes, the last-write-wins resolution, the entry a provider summary
contributes); they are compared against the transforms above. -/

/-- The spec's "version ≥ threshold" relation on `(major, minor)` pairs,
stated as a proposition. -/
def versionAtLeast (v : Version) (M m : Nat) : Prop :=
  M < v.major ∨ (M = v.major ∧ m ≤ v.minor)

instance (v : Version) (M m : Nat) : Decidable (versionAtLeast v M m) := by
  unfold versionAtLeast; infer_instance

/-- The `(provider, resource_class, amount)` facts described by one
grouped-by-provider candidate. -/
def dictFacts (d : AllocationsDictObj) : List (String × String × Nat) :=
  d.allocations.flatMap (fun p => p.2.resources.map (fun q => (p.1, q.1, q.2)))

/-- The `(provider, resource_class, amount)` facts described by one
flat-list candidate. -/
def listFacts (l : AllocationsListObj) : List (String × String × Nat) :=
  l.allocations.flatMap
    (fun e => e.resources.map (fun q => (e.resource_provider.uuid, q.1, q.2)))

/-- The amount a grouped-by-provider candidate records for provider `u`
and resource class `c`, if any. -/
def lookupAllocDict (u c : String) (d : AllocationsDictObj) : Option Nat :=
  (lookupAssoc u d.allocations).bind (fun ro => lookupAssoc c ro.resources)

/-- The amount a flat-list candidate records for provider `u` and
resource class `c` at the first array element for `u`, if any. -/
def lookupAllocList (u c : String) (l : AllocationsListObj) : Option Nat :=
  (l.allocations.find? (fun e => e.resource_provider.uuid == u)).bind
    (fun e => lookupAssoc c e.resources)

/-- Last-write-wins resolution over one AllocationRequest's resource
requests: the amount of the last request naming `(u, c)`, if any. -/
def lastWriteAmount (u c : String) : List ResourceRequest → Option Nat
  | [] => none
  | rr :: rest =>
    match lastWriteAmount u c rest with
    | some a => some a
    | none =>
      if rr.resource_provider.uuid = u ∧ rr.resource_class = c then
        some rr.amount
      else none

/-- The `provider_summaries` entry one ProviderSummary contributes:
its resources dict, and its trait names exactly when `include_traits`
holds. -/
def summaryEntry (include_traits : Bool) (ps : ProviderSummary) :
    ProviderSummaryEntry :=
  ⟨ps.resources.foldl
      (fun acc psr => upsert psr.resource_class ⟨psr.capacity, psr.used⟩ acc) [],
   if include_traits then some (ps.traits.map Trait.name) else none⟩

/-- The last ProviderSummary of the list whose provider uuid is `u`,
if any. -/
def lastSummaryFor (u : String) : List ProviderSummary → Option ProviderSummary
  | [] => none
  | ps :: rest =>
    match lastSummaryFor u rest with
    | some q => some q
    | none =>
      if ps.resource_provider.uuid = u then some ps else none

/-- How many candidates a transformed `allocation_requests` value
serializes, in either wire format. -/
def numAllocationRequests : TransformedAllocationRequests → Nat
  | TransformedAllocationRequests.dictFormat reqs => reqs.length
  | TransformedAllocationRequests.listFormat reqs => reqs.length

/-! Lemmas about the ordered-dict operations. -/

theorem lookupAssoc_upsert {α : Type} (k u : String) (v : α) (l : List (String × α)) :
    lookupAssoc u (upsert k v l) = if k = u then some v else lookupAssoc u l := by
  induction l with
  | nil =>
    by_cases h : k = u <;> simp [upsert, lookupAssoc, h]
  | cons p rest ih =>
    obtain ⟨k₁, v₁⟩ := p
    by_cases h₁ : k₁ = k
    · subst h₁
      by_cases h₂ : k₁ = u <;> simp [upsert, lookupAssoc, h₂]
    · by_cases h₂ : k₁ = u
      · subst h₂
        have hku : ¬ k = k₁ := fun h => h₁ h.symm
        simp [upsert, lookupAssoc, h₁, hku]
      · simp [upsert, lookupAssoc, h₁, h₂, ih]

theorem dictModify_upsert {α : Type} (k : String) (d : α) (f : α → α) (v : α)
    (l : List (String × α)) :
    dictModify k d f (upsert k v l) = upsert k (f v) l := by
  induction l with
  | nil => simp [upsert, dictModify]
  | cons p rest ih =>
    obtain ⟨k₁, v₁⟩ := p
    by_cases h₁ : k₁ = k
    · subst h₁
      simp [upsert, dictModify]
    · simp [upsert, dictModify, h₁, ih]

theorem mem_upsert {α : Type} (k : String) (v : α) (l : List (String × α))
    (p : String × α) (hp : p ∈ upsert k v l) : p = (k, v) ∨ p ∈ l := by
  induction l with
  | nil => simpa [upsert] using hp
  | cons q rest ih =>
    obtain ⟨k₁, v₁⟩ := q
    by_cases h₁ : k₁ = k
    · subst h₁
      simp only [upsert, if_pos, List.mem_cons] at hp
      simp only [List.mem_cons]
      tauto
    · simp only [upsert, if_neg h₁, List.mem_cons] at hp
      simp only [List.mem_cons]
      rcases hp with hq | hq
      · exact Or.inr (Or.inl hq)
      · rcases ih hq with h₂ | h₂
        · exact Or.inl h₂
        · exact Or.inr (Or.inr h₂)

theorem keys_upsert {α : Type} (k : String) (v : α) (l : List (String × α)) :
    (upsert k v l).map Prod.fst =
      if k ∈ l.map Prod.fst then l.map Prod.fst else l.map Prod.fst ++ [k] := by
  induction l with
  | nil => simp [upsert]
  | cons p rest ih =>
    obtain ⟨k₁, v₁⟩ := p
    by_cases h₁ : k₁ = k
    · subst h₁
      simp [upsert]
    · have hne : ¬ k = k₁ := fun h => h₁ h.symm
      by_cases h₂ : k ∈ rest.map Prod.fst <;>
        simp [upsert, h₁, h₂, hne, ih]

theorem keys_nodup_upsert {α : Type} (k : String) (v : α) (l : List (String × α))
    (h : (l.map Prod.fst).Nodup) : ((upsert k v l).map Prod.fst).Nodup := by
  rw [keys_upsert]
  by_cases hk : k ∈ l.map Prod.fst
  · simpa [hk] using h
  · simp only [hk, if_false]
    exact List.Nodup.append h (List.nodup_singleton k)
      (by simpa [List.disjoint_singleton] using hk)

theorem lookupAssoc_dictModify {α : Type} (k u : String) (d : α) (f : α → α)
    (l : List (String × α)) :
    lookupAssoc u (dictModify k d f l) =
      if k = u then some (f ((lookupAssoc k l).getD d)) else lookupAssoc u l := by
  induction l with
  | nil =>
    by_cases h : k = u <;> simp [dictModify, lookupAssoc, h]
  | cons p rest ih =>
    obtain ⟨k₁, v₁⟩ := p
    by_cases h₁ : k₁ = k
    · subst h₁
      by_cases h₂ : k₁ = u <;> simp [dictModify, lookupAssoc, h₂]
    · by_cases h₂ : k₁ = u
      · subst h₂
        have hku : ¬ k = k₁ := fun h => h₁ h.symm
        simp [dictModify, lookupAssoc, h₁, hku]
      · by_cases h₃ : k = u
        · subst h₃
          simp [dictModify, lookupAssoc, h₁, h₂, ih]
        · simp [dictModify, lookupAssoc, h₁, h₂, h₃, ih]

theorem dictModify_map_snd {α β : Type} (g : α → β) (k : String) (d : α)
    (f : α → α) (fg : β → β) (hcomm : ∀ a, g (f a) = fg (g a))
    (l : List (String × α)) :
    dictModify k (g d) fg (l.map (fun p => (p.1, g p.2))) =
      (dictModify k d f l).map (fun p => (p.1, g p.2)) := by
  induction l with
  | nil => simp [dictModify, hcomm]
  | cons p rest ih =>
    obtain ⟨k₁, v₁⟩ := p
    by_cases h₁ : k₁ = k <;> simp [dictModify, h₁, hcomm, ih]

/-- The two grouping loops compute the same ordered dict, up to wrapping
each value in the `{"resources": ...}` object. -/
theorem rpResourcesOf_eq_wrap (rrs : List ResourceRequest) :
    rpResourcesOf rrs =
      (providerResourcesOf rrs).map (fun p => (p.1, RPResources.mk p.2)) := by
  suffices h : ∀ acc : List (String × List (String × Nat)),
      rrs.foldl
        (fun acc rr =>
          dictModify rr.resource_provider.uuid ⟨[]⟩
            (fun ro => ⟨upsert rr.resource_class rr.amount ro.resources⟩) acc)
        (acc.map (fun p => (p.1, RPResources.mk p.2))) =
      (rrs.foldl
        (fun acc rr =>
          dictModify rr.resource_provider.uuid []
            (fun res_dict => upsert rr.resource_class rr.amount res_dict) acc)
        acc).map (fun p => (p.1, RPResources.mk p.2)) by
    simpa [rpResourcesOf, providerResourcesOf] using h []
  induction rrs with
  | nil => intro acc; simp
  | cons rr rest ih =>
    intro acc
    simp only [List.foldl_cons]
    rw [dictModify_map_snd RPResources.mk rr.resource_provider.uuid []
      (fun res_dict => upsert rr.resource_class rr.amount res_dict)
      (fun ro => ⟨upsert rr.resource_class rr.amount ro.resources⟩)
      (fun a => rfl) acc]
    exact ih _

/-- Wrapped groupings describe the same facts in both wire formats. -/
theorem facts_wrap (l : List (String × List (String × Nat))) :
    dictFacts ⟨l.map (fun p => (p.1, RPResources.mk p.2))⟩ =
      listFacts ⟨l.map (fun p => (⟨⟨p.1⟩, p.2⟩ : AllocListEntry))⟩ := by
  induction l with
  | nil => simp [dictFacts, listFacts]
  | cons p rest ih =>
    simp only [dictFacts, listFacts, List.map_cons, List.flatMap_cons] at ih ⊢
    simpa using ih

theorem matches_iff_versionAtLeast (v : Version) (m : Nat × Nat) :
    v.matches m = true ↔ versionAtLeast v m.1 m.2 := by
  simp [Version.matches, versionAtLeast]

theorem matches_eq_not_versionBelow (v : Version) (m : Nat × Nat) :
    v.matches m = !versionBelow v m := by
  simp only [Version.matches, versionBelow, ← decide_not, decide_eq_decide]
  omega

/-- One iteration of the `_transform_provider_summaries` loop is a
single ordered-dict assignment of the summary's entry. -/
theorem provider_summaries_step (ret : List (String × ProviderSummaryEntry))
    (ps : ProviderSummary) (include_traits : Bool) :
    (let resources := ps.resources.foldl
        (fun acc psr => upsert psr.resource_class ⟨psr.capacity, psr.used⟩ acc) []
     let ret₁ := upsert ps.resource_provider.uuid ⟨resources, none⟩ ret
     if include_traits then
       dictModify ps.resource_provider.uuid ⟨[], none⟩
         (fun e => { e with traits := some (ps.traits.map Trait.name) }) ret₁
     else ret₁) =
    upsert ps.resource_provider.uuid (summaryEntry include_traits ps) ret := by
  cases include_traits with
  | false => simp [summaryEntry]
  | true =>
    simp only [if_pos, summaryEntry]
    rw [dictModify_upsert]

theorem transform_provider_summaries_eq_foldl (p_sums : List ProviderSummary)
    (include_traits : Bool) :
    _transform_provider_summaries p_sums include_traits =
      p_sums.foldl
        (fun ret ps =>
          upsert ps.resource_provider.uuid (summaryEntry include_traits ps) ret)
        [] := by
  unfold _transform_provider_summaries
  congr 1
  funext ret ps
  exact provider_summaries_step ret ps include_traits

theorem mem_foldl_upsert_summary (p_sums : List ProviderSummary)
    (include_traits : Bool) (acc : List (String × ProviderSummaryEntry))
    (p : String × ProviderSummaryEntry)
    (hp : p ∈ p_sums.foldl
        (fun ret ps =>
          upsert ps.resource_provider.uuid (summaryEntry include_traits ps) ret)
        acc) :
    (∃ ps ∈ p_sums, p = (ps.resource_provider.uuid, summaryEntry include_traits ps))
      ∨ p ∈ acc := by
  induction p_sums generalizing acc with
  | nil => exact Or.inr hp
  | cons ps rest ih =>
    simp only [List.foldl_cons] at hp
    rcases ih _ hp with h | h
    · obtain ⟨q, hq, hpq⟩ := h
      exact Or.inl ⟨q, List.mem_cons_of_mem _ hq, hpq⟩
    · rcases mem_upsert _ _ _ _ h with h₁ | h₁
      · exact Or.inl ⟨ps, List.mem_cons_self _ _, h₁⟩
      · exact Or.inr h₁

/-- Every entry of the transformed provider summaries is the entry of
one of the input summaries. -/
theorem mem_transform_provider_summaries (p_sums : List ProviderSummary)
    (include_traits : Bool) (p : String × ProviderSummaryEntry)
    (hp : p ∈ _transform_provider_summaries p_sums include_traits) :
    ∃ ps ∈ p_sums,
      p = (ps.resource_provider.uuid, summaryEntry include_traits ps) := by
  rw [transform_provider_summaries_eq_foldl] at hp
  rcases mem_foldl_upsert_summary p_sums include_traits [] p hp with h | h
  · exact h
  · simp at h

theorem mem_keys_upsert {α : Type} (k u : String) (v : α) (l : List (String × α)) :
    u ∈ (upsert k v l).map Prod.fst ↔ u = k ∨ u ∈ l.map Prod.fst := by
  rw [keys_upsert]
  by_cases h : k ∈ l.map Prod.fst
  · simp only [h, if_true]
    constructor
    · exact Or.inr
    · rintro (rfl | hu)
      · exact h
      · exact hu
  · simp only [h, if_false, List.mem_append, List.mem_singleton]
    tauto

theorem keys_foldl_upsert_summary (p_sums : List ProviderSummary)
    (include_traits : Bool) (acc : List (String × ProviderSummaryEntry))
    (u : String) :
    (u ∈ (p_sums.foldl
        (fun ret ps =>
          upsert ps.resource_provider.uuid (summaryEntry include_traits ps) ret)
        acc).map Prod.fst) ↔
      u ∈ p_sums.map (fun ps => ps.resource_provider.uuid)
        ∨ u ∈ acc.map Prod.fst := by
  induction p_sums generalizing acc with
  | nil => simp
  | cons ps rest ih =>
    simp only [List.foldl_cons, List.map_cons, List.mem_cons]
    rw [ih, mem_keys_upsert]
    tauto

theorem keys_nodup_foldl_upsert_summary (p_sums : List ProviderSummary)
    (include_traits : Bool) (acc : List (String × ProviderSummaryEntry))
    (hacc : (acc.map Prod.fst).Nodup) :
    ((p_sums.foldl
        (fun ret ps =>
          upsert ps.resource_provider.uuid (summaryEntry include_traits ps) ret)
        acc).map Prod.fst).Nodup := by
  induction p_sums generalizing acc with
  | nil => exact hacc
  | cons ps rest ih =>
    simp only [List.foldl_cons]
    exact ih _ (keys_nodup_upsert _ _ _ hacc)

theorem lookup_foldl_upsert_summary (p_sums : List ProviderSummary)
    (include_traits : Bool) (acc : List (String × ProviderSummaryEntry))
    (u : String) :
    lookupAssoc u (p_sums.foldl
        (fun ret ps =>
          upsert ps.resource_provider.uuid (summaryEntry include_traits ps) ret)
        acc) =
      match lastSummaryFor u p_sums with
      | some q => some (summaryEntry include_traits q)
      | none => lookupAssoc u acc := by
  induction p_sums generalizing acc with
  | nil => simp [lastSummaryFor]
  | cons ps rest ih =>
    simp only [List.foldl_cons, lastSummaryFor]
    rw [ih]
    cases h : lastSummaryFor u rest with
    | some q => simp
    | none =>
      simp only []
      rw [lookupAssoc_upsert]
      by_cases hu : ps.resource_provider.uuid = u <;> simp [hu]

/-- The transformed provider summaries at key `u` hold the entry of the
last input summary whose provider uuid is `u`. -/
theorem lookup_transform_provider_summaries (p_sums : List ProviderSummary)
    (include_traits : Bool) (u : String) :
    lookupAssoc u (_transform_provider_summaries p_sums include_traits) =
      (lastSummaryFor u p_sums).map (summaryEntry include_traits) := by
  rw [transform_provider_summaries_eq_foldl,
    lookup_foldl_upsert_summary p_sums include_traits [] u]
  cases h : lastSummaryFor u p_sums <;> simp [lookupAssoc]

theorem lookupAssoc_map_snd {α β : Type} (g : α → β) (u : String)
    (l : List (String × α)) :
    lookupAssoc u (l.map (fun p => (p.1, g p.2))) = (lookupAssoc u l).map g := by
  induction l with
  | nil => simp [lookupAssoc]
  | cons p rest ih =>
    obtain ⟨k₁, v₁⟩ := p
    by_cases h : k₁ = u <;> simp [lookupAssoc, h, ih]

theorem lookupAlloc_stepList (acc : List (String × List (String × Nat)))
    (rr : ResourceRequest) (u c : String) :
    (lookupAssoc u (dictModify rr.resource_provider.uuid []
        (fun res_dict => upsert rr.resource_class rr.amount res_dict) acc)).bind
        (lookupAssoc c) =
      if rr.resource_provider.uuid = u ∧ rr.resource_class = c then
        some rr.amount
      else (lookupAssoc u acc).bind (lookupAssoc c) := by
  rw [lookupAssoc_dictModify]
  by_cases hpu : rr.resource_provider.uuid = u
  · simp only [hpu, if_true, Option.some_bind]
    rw [lookupAssoc_upsert]
    by_cases hc : rr.resource_class = c
    · simp [hpu, hc]
    · simp only [hc, if_false, hpu, true_and]
      cases h : lookupAssoc u acc <;> simp [h, lookupAssoc]
  · simp [hpu]

theorem lookupAlloc_foldl_list (rrs : List ResourceRequest)
    (acc : List (String × List (String × Nat))) (u c : String) :
    (lookupAssoc u (rrs.foldl
        (fun acc rr =>
          dictModify rr.resource_provider.uuid []
            (fun res_dict => upsert rr.resource_class rr.amount res_dict) acc)
        acc)).bind (lookupAssoc c) =
      match lastWriteAmount u c rrs with
      | some a => some a
      | none => (lookupAssoc u acc).bind (lookupAssoc c) := by
  induction rrs generalizing acc with
  | nil => simp [lastWriteAmount]
  | cons rr rest ih =>
    simp only [List.foldl_cons, lastWriteAmount]
    rw [ih]
    cases h : lastWriteAmount u c rest with
    | some a => simp
    | none =>
      simp only []
      rw [lookupAlloc_stepList]
      by_cases hm : rr.resource_provider.uuid = u ∧ rr.resource_class = c <;>
        simp [hm]

/-- In the flat-list grouping, the recorded amount for `(u, c)` is the
last-write-wins resolution over the resource requests. -/
theorem lookupAlloc_providerResourcesOf (rrs : List ResourceRequest)
    (u c : String) :
    (lookupAssoc u (providerResourcesOf rrs)).bind (lookupAssoc c) =
      lastWriteAmount u c rrs := by
  rw [providerResourcesOf, lookupAlloc_foldl_list rrs [] u c]
  cases h : lastWriteAmount u c rrs <;> simp [lookupAssoc]

/-- In the grouped-by-provider format, the recorded amount for `(u, c)`
is the last-write-wins resolution over the resource requests. -/
theorem lookupAllocDict_rpResourcesOf (rrs : List ResourceRequest)
    (u c : String) :
    lookupAllocDict u c ⟨rpResourcesOf rrs⟩ = lastWriteAmount u c rrs := by
  rw [lookupAllocDict, rpResourcesOf_eq_wrap]
  simp only [lookupAssoc_map_snd RPResources.mk u (providerResourcesOf rrs)]
  rw [← lookupAlloc_providerResourcesOf rrs u c]
  cases h : lookupAssoc u (providerResourcesOf rrs) <;> simp [h]

theorem lookupAssoc_eq_find? {α : Type} (u : String) (l : List (String × α)) :
    lookupAssoc u l = (l.find? (fun p => p.1 == u)).map Prod.snd := by
  induction l with
  | nil => simp [lookupAssoc]
  | cons p rest ih =>
    obtain ⟨k₁, v₁⟩ := p
    by_cases h : k₁ = u <;> simp [lookupAssoc, List.find?_cons, h, ih]

/-- In the flat-list format, the amount at the first array element for
`u` is the last-write-wins resolution over the resource requests. -/
theorem lookupAllocList_transform (rrs : List ResourceRequest) (u c : String) :
    lookupAllocList u c
        ⟨(providerResourcesOf rrs).map (fun p => ⟨⟨p.1⟩, p.2⟩)⟩ =
      lastWriteAmount u c rrs := by
  rw [lookupAllocList, ← lookupAlloc_providerResourcesOf rrs u c,
    lookupAssoc_eq_find?]
  have hfind : ((providerResourcesOf rrs).map
        (fun p => (⟨⟨p.1⟩, p.2⟩ : AllocListEntry))).find?
        (fun e => e.resource_provider.uuid == u) =
      ((providerResourcesOf rrs).find? (fun p => p.1 == u)).map
        (fun p => (⟨⟨p.1⟩, p.2⟩ : AllocListEntry)) := by
    induction providerResourcesOf rrs with
    | nil => simp
    | cons p rest ih =>
      by_cases h : p.1 = u <;> simp [List.find?_cons, h, ih]
  rw [hfind]
  cases h : (providerResourcesOf rrs).find? (fun p => p.1 == u) <;> simp [h]

/-- Helper for C8: either transform serializes exactly as many
candidates as the engine returned. -/
theorem numAllocationRequests_transform (cands : AllocationCandidates)
    (v : Version) :
    numAllocationRequests
        (_transform_allocation_candidates cands v).allocation_requests =
      cands.allocation_requests.length := by
  unfold _transform_allocation_candidates
  by_cases h : v.matches (1, 12) = true <;>
    simp [h, numAllocationRequests, _transform_allocation_requests_dict,
      _transform_allocation_requests_list]

/-- C1: allocation-request format selection is a pure function of the
negotiated version: below the 1.12 threshold
`_transform_allocation_candidates` serializes `allocation_requests` via
the flat-list transform, at or above via the grouped-by-provider dict
transform, and for no version are both formats produced. -/
theorem allocation_format_pure_function_of_version
    (ac : AllocationCandidates) (v : Version) :
    ((_transform_allocation_candidates ac v).allocation_requests =
        TransformedAllocationRequests.listFormat
          (_transform_allocation_requests_list ac.allocation_requests) ↔
      versionBelow v (1, 12) = true) ∧
    ((_transform_allocation_candidates ac v).allocation_requests =
        TransformedAllocationRequests.dictFormat
          (_transform_allocation_requests_dict ac.allocation_requests) ↔
      versionBelow v (1, 12) = false) ∧
    ¬ ((_transform_allocation_candidates ac v).allocation_requests =
        TransformedAllocationRequests.listFormat
          (_transform_allocation_requests_list ac.allocation_requests) ∧
      (_transform_allocation_candidates ac v).allocation_requests =
        TransformedAllocationRequests.dictFormat
          (_transform_allocation_requests_dict ac.allocation_requests)) := by
  have hm := matches_eq_not_versionBelow v (1, 12)
  unfold _transform_allocation_candidates
  cases hb : versionBelow v (1, 12) <;> rw [hb] at hm <;> simp [hm]

/-- C2: reshaping is lossless — for every list of AllocationRequest
objects without duplicate `(provider, resource_class)` pairs inside one
request, the flat-list and grouped-by-provider transforms describe
exactly the same `(provider, resource_class, amount)` facts for each
candidate. -/
theorem transforms_describe_same_facts (ars : List AllocationRequest)
    (hnodup : ∀ ar ∈ ars,
      (ar.resource_requests.map
        (fun rr => (rr.resource_provider.uuid, rr.resource_class))).Nodup) :
    (_transform_allocation_requests_dict ars).length =
      (_transform_allocation_requests_list ars).length ∧
    ∀ (i : Nat) (hd : i < (_transform_allocation_requests_dict ars).length)
      (hl : i < (_transform_allocation_requests_list ars).length)
      (f : String × String × Nat),
      f ∈ dictFacts ((_transform_allocation_requests_dict ars).get ⟨i, hd⟩) ↔
        f ∈ listFacts ((_transform_allocation_requests_list ars).get ⟨i, hl⟩) := by
  constructor
  · simp [_transform_allocation_requests_dict,
      _transform_allocation_requests_list]
  · intro i hd hl f
    have hi : i < ars.length := by
      simpa [_transform_allocation_requests_dict] using hd
    have hget_d : (_transform_allocation_requests_dict ars).get ⟨i, hd⟩ =
        ⟨rpResourcesOf (ars.get ⟨i, hi⟩).resource_requests⟩ := by
      simp [_transform_allocation_requests_dict, List.get_eq_getElem,
        List.getElem_map]
    have hget_l : (_transform_allocation_requests_list ars).get ⟨i, hl⟩ =
        ⟨((providerResourcesOf (ars.get ⟨i, hi⟩).resource_requests)).map
          (fun p => ⟨⟨p.1⟩, p.2⟩)⟩ := by
      simp [_transform_allocation_requests_list, List.get_eq_getElem,
        List.getElem_map]
    rw [hget_d, hget_l]
    rw [show (⟨rpResourcesOf (ars.get ⟨i, hi⟩).resource_requests⟩ :
        AllocationsDictObj) =
      ⟨(providerResourcesOf (ars.get ⟨i, hi⟩).resource_requests).map
        (fun p => (p.1, RPResources.mk p.2))⟩ from by
        rw [rpResourcesOf_eq_wrap]]
    rw [facts_wrap]

/-- C2 witness: the lossless theorem applied to one concrete candidate
with two providers. -/
theorem transforms_describe_same_facts_witness :
    (∀ ar ∈ ([⟨[⟨⟨"A"⟩, "VCPU", 2⟩, ⟨⟨"B"⟩, "MEMORY_MB", 512⟩]⟩] :
        List AllocationRequest),
      (ar.resource_requests.map
        (fun rr => (rr.resource_provider.uuid, rr.resource_class))).Nodup) ∧
    ((_transform_allocation_requests_dict
        [⟨[⟨⟨"A"⟩, "VCPU", 2⟩, ⟨⟨"B"⟩, "MEMORY_MB", 512⟩]⟩]).length =
      (_transform_allocation_requests_list
        [⟨[⟨⟨"A"⟩, "VCPU", 2⟩, ⟨⟨"B"⟩, "MEMORY_MB", 512⟩]⟩]).length ∧
    ∀ (i : Nat)
      (hd : i < (_transform_allocation_requests_dict
        [⟨[⟨⟨"A"⟩, "VCPU", 2⟩, ⟨⟨"B"⟩, "MEMORY_MB", 512⟩]⟩]).length)
      (hl : i < (_transform_allocation_requests_list
        [⟨[⟨⟨"A"⟩, "VCPU", 2⟩, ⟨⟨"B"⟩, "MEMORY_MB", 512⟩]⟩]).length)
      (f : String × String × Nat),
      f ∈ dictFacts ((_transform_allocation_requests_dict
        [⟨[⟨⟨"A"⟩, "VCPU", 2⟩, ⟨⟨"B"⟩, "MEMORY_MB", 512⟩]⟩]).get ⟨i, hd⟩) ↔
        f ∈ listFacts ((_transform_allocation_requests_list
        [⟨[⟨⟨"A"⟩, "VCPU", 2⟩, ⟨⟨"B"⟩, "MEMORY_MB", 512⟩]⟩]).get ⟨i, hl⟩)) :=
  ⟨by decide, transforms_describe_same_facts _ (by decide)⟩

/-- C3 counterexample: a duplicate `(provider, resource_class)` pair
within one AllocationRequest is resolved silently — both transforms
return a result (no error is possible) in which the later amount 2 has
overwritten the earlier amount 1. -/
theorem duplicate_pair_silently_overwritten :
    _transform_allocation_requests_dict
        [⟨[⟨⟨"RP1"⟩, "VCPU", 1⟩, ⟨⟨"RP1"⟩, "VCPU", 2⟩]⟩] =
      [⟨[("RP1", ⟨[("VCPU", 2)]⟩)]⟩] ∧
    _transform_allocation_requests_list
        [⟨[⟨⟨"RP1"⟩, "VCPU", 1⟩, ⟨⟨"RP1"⟩, "VCPU", 2⟩]⟩] =
      [⟨[⟨⟨"RP1"⟩, [("VCPU", 2)]⟩]⟩] ∧
    _transform_allocation_requests_dict
        [⟨[⟨⟨"RP1"⟩, "VCPU", 1⟩, ⟨⟨"RP1"⟩, "VCPU", 2⟩]⟩] ≠
      [⟨[("RP1", ⟨[("VCPU", 1)]⟩)]⟩] := by decide

/-- C3 (amended): for an AllocationRequest with duplicate
`(provider, resource_class)` pairs, both transforms silently resolve
them by last-write-wins — the recorded amount for each pair is that of
the last resource request naming it, and no error is raised. -/
theorem duplicate_pairs_resolved_last_write_wins
    (ars : List AllocationRequest) (i : Nat)
    (hd : i < (_transform_allocation_requests_dict ars).length)
    (hl : i < (_transform_allocation_requests_list ars).length)
    (hi : i < ars.length) (u c : String) :
    lookupAllocDict u c ((_transform_allocation_requests_dict ars).get ⟨i, hd⟩) =
      lastWriteAmount u c (ars.get ⟨i, hi⟩).resource_requests ∧
    lookupAllocList u c ((_transform_allocation_requests_list ars).get ⟨i, hl⟩) =
      lastWriteAmount u c (ars.get ⟨i, hi⟩).resource_requests := by
  have hget_d : (_transform_allocation_requests_dict ars).get ⟨i, hd⟩ =
      ⟨rpResourcesOf (ars.get ⟨i, hi⟩).resource_requests⟩ := by
    simp [_transform_allocation_requests_dict, List.get_eq_getElem,
      List.getElem_map]
  have hget_l : (_transform_allocation_requests_list ars).get ⟨i, hl⟩ =
      ⟨((providerResourcesOf (ars.get ⟨i, hi⟩).resource_requests)).map
        (fun p => ⟨⟨p.1⟩, p.2⟩)⟩ := by
    simp [_transform_allocation_requests_list, List.get_eq_getElem,
      List.getElem_map]
  rw [hget_d, hget_l]
  exact ⟨lookupAllocDict_rpResourcesOf _ u c, lookupAllocList_transform _ u c⟩

/-- C3 witness: the amended theorem applied to the duplicate-pair
candidate, where last-write-wins yields amount 2. -/
theorem duplicate_pairs_resolved_last_write_wins_witness :
    (0 < ([⟨[⟨⟨"RP1"⟩, "VCPU", 1⟩, ⟨⟨"RP1"⟩, "VCPU", 2⟩]⟩] :
        List AllocationRequest).length) ∧
    (lookupAllocDict "RP1" "VCPU"
        ((_transform_allocation_requests_dict
          [⟨[⟨⟨"RP1"⟩, "VCPU", 1⟩, ⟨⟨"RP1"⟩, "VCPU", 2⟩]⟩]).get
            ⟨0, by decide⟩) =
      lastWriteAmount "RP1" "VCPU"
        (([⟨[⟨⟨"RP1"⟩, "VCPU", 1⟩, ⟨⟨"RP1"⟩, "VCPU", 2⟩]⟩] :
          List AllocationRequest).get ⟨0, by decide⟩).resource_requests ∧
    lookupAllocList "RP1" "VCPU"
        ((_transform_allocation_requests_list
          [⟨[⟨⟨"RP1"⟩, "VCPU", 1⟩, ⟨⟨"RP1"⟩, "VCPU", 2⟩]⟩]).get
            ⟨0, by decide⟩) =
      lastWriteAmount "RP1" "VCPU"
        (([⟨[⟨⟨"RP1"⟩, "VCPU", 1⟩, ⟨⟨"RP1"⟩, "VCPU", 2⟩]⟩] :
          List AllocationRequest).get ⟨0, by decide⟩).resource_requests) ∧
    lastWriteAmount "RP1" "VCPU"
      (([⟨[⟨⟨"RP1"⟩, "VCPU", 1⟩, ⟨⟨"RP1"⟩, "VCPU", 2⟩]⟩] :
        List AllocationRequest).get ⟨0, by decide⟩).resource_requests = some 2 :=
  ⟨by decide,
   duplicate_pairs_resolved_last_write_wins _ 0 (by decide) (by decide)
     (by decide) "RP1" "VCPU",
   by decide⟩

/-- C4: trait exposure is gated exactly by the 1.17 threshold —
`include_traits` is true iff the negotiated version is ≥ 1.17, and an
entry of the transformed `provider_summaries` carries a `"traits"` key
exactly when it is (so none when it is false, all when it is true). -/
theorem traits_gated_by_threshold (ac : AllocationCandidates) (v : Version) :
    (v.matches (1, 17) = true ↔ versionAtLeast v 1 17) ∧
    ∀ p ∈ (_transform_allocation_candidates ac v).provider_summaries,
      p.2.traits.isSome = v.matches (1, 17) := by
  refine ⟨matches_iff_versionAtLeast v (1, 17), ?_⟩
  intro p hp
  have hmem : p ∈ _transform_provider_summaries ac.provider_summaries
      (v.matches (1, 17)) := by
    simpa [_transform_allocation_candidates] using hp
  obtain ⟨ps, _, hpe⟩ :=
    mem_transform_provider_summaries _ _ _ hmem
  subst hpe
  cases h17 : v.matches (1, 17) <;> simp [summaryEntry, h17]

/-- C4 witness: at version 1.17 with one summary, the traits key is
present. -/
theorem traits_gated_by_threshold_witness :
    ((⟨1, 17⟩ : Version).matches (1, 17) = true ↔
      versionAtLeast ⟨1, 17⟩ 1 17) ∧
    (("RP1", summaryEntry true ⟨⟨"RP1"⟩, [], [⟨"HW_CPU_X86_AVX512F"⟩]⟩) ∈
      (_transform_allocation_candidates
        ⟨[], [⟨⟨"RP1"⟩, [], [⟨"HW_CPU_X86_AVX512F"⟩]⟩]⟩
        ⟨1, 17⟩).provider_summaries) ∧
    (("RP1", summaryEntry true
        ⟨⟨"RP1"⟩, [], [⟨"HW_CPU_X86_AVX512F"⟩]⟩) :
        String × ProviderSummaryEntry).2.traits.isSome =
      (⟨1, 17⟩ : Version).matches (1, 17) :=
  ⟨(traits_gated_by_threshold ⟨[], []⟩ ⟨1, 17⟩).1, by decide,
   (traits_gated_by_threshold
       ⟨[], [⟨⟨"RP1"⟩, [], [⟨"HW_CPU_X86_AVX512F"⟩]⟩]⟩ ⟨1, 17⟩).2
     _ (by decide)⟩

/-- C5: when `validate_query_params` fails, the endpoint surfaces a
client error (HTTP 400) and the matching engine is never invoked — the
invocation trace is `none` and no transformation is performed. -/
theorem validation_failure_fails_fast
    (validate : GetSchema → Option String)
    (get_by_requests : List RequestGroup → Option Nat →
      Except EngineExc AllocationCandidates)
    (v : Version) (reqs : List RequestGroup) (lq : List Nat) (msg : String)
    (h : validate (select_get_schema v) = some msg) :
    list_allocation_candidates validate get_by_requests v reqs lq =
      (Except.error (HandlerExc.httpBadRequest msg), none) := by
  simp [list_allocation_candidates, h]

/-- C5 witness: a failing validator yields the 400 with an empty
invocation trace. -/
theorem validation_failure_fails_fast_witness :
    ((fun _ : GetSchema => some "boom") (select_get_schema ⟨1, 10⟩) =
      some "boom") ∧
    list_allocation_candidates (fun _ => some "boom")
        (fun _ _ => Except.ok ⟨[], []⟩) ⟨1, 10⟩ [] [] =
      (Except.error (HandlerExc.httpBadRequest "boom"), none) :=
  ⟨rfl, validation_failure_fails_fast _ _ ⟨1, 10⟩ [] [] "boom" rfl⟩

/-- C6: matching-engine failures are translated only for the two known
kinds — `ResourceClassNotFound` becomes an HTTP 400 whose message embeds
the engine's text, `TraitNotFound` becomes an HTTP 400 carrying the
engine's text, and any other engine failure propagates uncaught; in all
three cases the handler produces no response body (the transformer is
never reached). -/
theorem engine_errors_translated_at_boundary
    (validate : GetSchema → Option String)
    (get_by_requests : List RequestGroup → Option Nat →
      Except EngineExc AllocationCandidates)
    (v : Version) (reqs : List RequestGroup) (lq : List Nat)
    (h : validate (select_get_schema v) = none) :
    (∀ msg, get_by_requests reqs lq.head? =
        Except.error (EngineExc.resourceClassNotFound msg) →
      list_allocation_candidates validate get_by_requests v reqs lq =
        (Except.error (HandlerExc.httpBadRequest
          ("Invalid resource class in resources parameter: " ++ msg)),
         some (reqs, lq.head?))) ∧
    (∀ msg, get_by_requests reqs lq.head? =
        Except.error (EngineExc.traitNotFound msg) →
      list_allocation_candidates validate get_by_requests v reqs lq =
        (Except.error (HandlerExc.httpBadRequest msg),
         some (reqs, lq.head?))) ∧
    (∀ msg, get_by_requests reqs lq.head? =
        Except.error (EngineExc.other msg) →
      list_allocation_candidates validate get_by_requests v reqs lq =
        (Except.error (HandlerExc.uncaught (EngineExc.other msg)),
         some (reqs, lq.head?))) := by
  refine ⟨?_, ?_, ?_⟩ <;> intro msg hm <;>
    simp [list_allocation_candidates, h, hm]

/-- C6 witness: the three translations at concrete engines; the
ResourceClassNotFound message embeds the offending name. -/
theorem engine_errors_translated_at_boundary_witness :
    ((fun _ : GetSchema => (none : Option String))
        (select_get_schema ⟨1, 10⟩) = none) ∧
    list_allocation_candidates (fun _ => none)
        (fun _ _ => Except.error (EngineExc.resourceClassNotFound "BOGUS"))
        ⟨1, 10⟩ [] [] =
      (Except.error (HandlerExc.httpBadRequest
        ("Invalid resource class in resources parameter: " ++ "BOGUS")),
       some ([], none)) ∧
    list_allocation_candidates (fun _ => none)
        (fun _ _ => Except.error (EngineExc.traitNotFound "No such trait"))
        ⟨1, 10⟩ [] [] =
      (Except.error (HandlerExc.httpBadRequest "No such trait"),
       some ([], none)) ∧
    list_allocation_candidates (fun _ => none)
        (fun _ _ => Except.error (EngineExc.other "db gone")) ⟨1, 10⟩ [] [] =
      (Except.error (HandlerExc.uncaught (EngineExc.other "db gone")),
       some ([], none)) :=
  ⟨rfl,
   (engine_errors_translated_at_boundary (fun _ => none)
       (fun _ _ => Except.error (EngineExc.resourceClassNotFound "BOGUS"))
       ⟨1, 10⟩ [] [] rfl).1 "BOGUS" rfl,
   (engine_errors_translated_at_boundary (fun _ => none)
       (fun _ _ => Except.error (EngineExc.traitNotFound "No such trait"))
       ⟨1, 10⟩ [] [] rfl).2.1 "No such trait" rfl,
   (engine_errors_translated_at_boundary (fun _ => none)
       (fun _ _ => Except.error (EngineExc.other "db gone"))
       ⟨1, 10⟩ [] [] rfl).2.2 "db gone" rfl⟩

/-- C7: query-schema selection picks the highest satisfied threshold,
evaluated in descending order 1.21, 1.17, 1.16, with `GET_SCHEMA_1_10`
as the default; being a function, it selects exactly one schema per
request. -/
theorem schema_selection_highest_threshold (v : Version) :
    (versionAtLeast v 1 21 →
      select_get_schema v = GetSchema.GET_SCHEMA_1_21) ∧
    (¬ versionAtLeast v 1 21 → versionAtLeast v 1 17 →
      select_get_schema v = GetSchema.GET_SCHEMA_1_17) ∧
    (¬ versionAtLeast v 1 17 → versionAtLeast v 1 16 →
      select_get_schema v = GetSchema.GET_SCHEMA_1_16) ∧
    (¬ versionAtLeast v 1 16 →
      select_get_schema v = GetSchema.GET_SCHEMA_1_10) := by
  have h21 := matches_iff_versionAtLeast v (1, 21)
  have h17 := matches_iff_versionAtLeast v (1, 17)
  have h16 := matches_iff_versionAtLeast v (1, 16)
  have mono21 : versionAtLeast v 1 21 → versionAtLeast v 1 17 := by
    unfold versionAtLeast; omega
  have mono17 : versionAtLeast v 1 17 → versionAtLeast v 1 16 := by
    unfold versionAtLeast; omega
  refine ⟨?_, ?_, ?_, ?_⟩
  · intro h
    simp [select_get_schema, h21.mpr h]
  · intro hn h
    have e21 : v.matches (1, 21) = false := by
      cases hx : v.matches (1, 21)
      · rfl
      · exact absurd (h21.mp hx) hn
    simp [select_get_schema, e21, h17.mpr h]
  · intro hn h
    have e21 : v.matches (1, 21) = false := by
      cases hx : v.matches (1, 21)
      · rfl
      · exact absurd (mono21 (h21.mp hx)) hn
    have e17 : v.matches (1, 17) = false := by
      cases hx : v.matches (1, 17)
      · rfl
      · exact absurd (h17.mp hx) hn
    simp [select_get_schema, e21, e17, h16.mpr h]
  · intro hn
    have e21 : v.matches (1, 21) = false := by
      cases hx : v.matches (1, 21)
      · rfl
      · exact absurd (mono17 (mono21 (h21.mp hx))) hn
    have e17 : v.matches (1, 17) = false := by
      cases hx : v.matches (1, 17)
      · rfl
      · exact absurd (mono17 (h17.mp hx)) hn
    have e16 : v.matches (1, 16) = false := by
      cases hx : v.matches (1, 16)
      · rfl
      · exact absurd (h16.mp hx) hn
    simp [select_get_schema, e21, e17, e16]

/-- C7 witness: one version per band of the descending threshold chain. -/
theorem schema_selection_highest_threshold_witness :
    (versionAtLeast ⟨1, 25⟩ 1 21 ∧
      select_get_schema ⟨1, 25⟩ = GetSchema.GET_SCHEMA_1_21) ∧
    (¬ versionAtLeast ⟨1, 18⟩ 1 21 ∧ versionAtLeast ⟨1, 18⟩ 1 17 ∧
      select_get_schema ⟨1, 18⟩ = GetSchema.GET_SCHEMA_1_17) ∧
    (¬ versionAtLeast ⟨1, 16⟩ 1 17 ∧ versionAtLeast ⟨1, 16⟩ 1 16 ∧
      select_get_schema ⟨1, 16⟩ = GetSchema.GET_SCHEMA_1_16) ∧
    (¬ versionAtLeast ⟨1, 10⟩ 1 16 ∧
      select_get_schema ⟨1, 10⟩ = GetSchema.GET_SCHEMA_1_10) :=
  ⟨⟨by decide, (schema_selection_highest_threshold ⟨1, 25⟩).1 (by decide)⟩,
   ⟨by decide, by decide,
    (schema_selection_highest_threshold ⟨1, 18⟩).2.1 (by decide) (by decide)⟩,
   ⟨by decide, by decide,
    (schema_selection_highest_threshold ⟨1, 16⟩).2.2.1 (by decide) (by decide)⟩,
   ⟨by decide,
    (schema_selection_highest_threshold ⟨1, 10⟩).2.2.2 (by decide)⟩⟩

/-- C8: the result limit is passed to the matching engine unmodified
(the first `limit` query value, or absence), and this layer never
truncates — whatever candidate list the engine returns is transformed in
full, its length preserved in the serialized body, regardless of the
limit value. -/
theorem limit_passed_through_no_truncation
    (validate : GetSchema → Option String)
    (get_by_requests : List RequestGroup → Option Nat →
      Except EngineExc AllocationCandidates)
    (v : Version) (reqs : List RequestGroup) (lq : List Nat)
    (h : validate (select_get_schema v) = none) :
    (list_allocation_candidates validate get_by_requests v reqs lq).2 =
      some (reqs, lq.head?) ∧
    ∀ cands, get_by_requests reqs lq.head? = Except.ok cands →
      ∃ resp : Response,
        (list_allocation_candidates validate get_by_requests v reqs lq).1 =
          Except.ok resp ∧
        resp.body = _transform_allocation_candidates cands v ∧
        numAllocationRequests resp.body.allocation_requests =
          cands.allocation_requests.length := by
  constructor
  · simp only [list_allocation_candidates, h]
    cases he : get_by_requests reqs lq.head? with
    | ok cands => simp
    | error e => cases e <;> simp
  · intro cands hc
    refine ⟨{ body := _transform_allocation_candidates cands v
              content_type := "application/json"
              cache_control :=
                if v.matches (1, 15) then some "no-cache" else none
              last_modified_set := v.matches (1, 15) }, ?_, rfl, ?_⟩
    · simp [list_allocation_candidates, h, hc]
    · exact numAllocationRequests_transform cands v

/-- C8 witness: with `limit=2` and an engine returning five candidates,
the engine receives limit 2 and all five candidates are serialized. -/
theorem limit_passed_through_no_truncation_witness :
    ((fun _ : GetSchema => (none : Option String))
        (select_get_schema ⟨1, 10⟩) = none) ∧
    (list_allocation_candidates (fun _ => none)
        (fun _ _ => Except.ok ⟨[⟨[]⟩, ⟨[]⟩, ⟨[]⟩, ⟨[]⟩, ⟨[]⟩], []⟩)
        ⟨1, 10⟩ [] [2]).2 = some ([], some 2) ∧
    ((fun _ _ => Except.ok ⟨[⟨[]⟩, ⟨[]⟩, ⟨[]⟩, ⟨[]⟩, ⟨[]⟩], []⟩ :
        List RequestGroup → Option Nat →
          Except EngineExc AllocationCandidates) [] (([2] : List Nat).head?) =
      Except.ok ⟨[⟨[]⟩, ⟨[]⟩, ⟨[]⟩, ⟨[]⟩, ⟨[]⟩], []⟩) ∧
    ∃ resp : Response,
      (list_allocation_candidates (fun _ => none)
          (fun _ _ => Except.ok ⟨[⟨[]⟩, ⟨[]⟩, ⟨[]⟩, ⟨[]⟩, ⟨[]⟩], []⟩)
          ⟨1, 10⟩ [] [2]).1 = Except.ok resp ∧
      resp.body = _transform_allocation_candidates
        ⟨[⟨[]⟩, ⟨[]⟩, ⟨[]⟩, ⟨[]⟩, ⟨[]⟩], []⟩ ⟨1, 10⟩ ∧
      numAllocationRequests resp.body.allocation_requests =
        (⟨[⟨[]⟩, ⟨[]⟩, ⟨[]⟩, ⟨[]⟩, ⟨[]⟩], []⟩ :
          AllocationCandidates).allocation_requests.length :=
  ⟨rfl,
   (limit_passed_through_no_truncation (fun _ => none)
       (fun _ _ => Except.ok ⟨[⟨[]⟩, ⟨[]⟩, ⟨[]⟩, ⟨[]⟩, ⟨[]⟩], []⟩)
       ⟨1, 10⟩ [] [2] rfl).1,
   rfl,
   (limit_passed_through_no_truncation (fun _ => none)
       (fun _ _ => Except.ok ⟨[⟨[]⟩, ⟨[]⟩, ⟨[]⟩, ⟨[]⟩, ⟨[]⟩], []⟩)
       ⟨1, 10⟩ [] [2] rfl).2 _ rfl⟩

/-- C9 (implicit): both allocation-request transforms are
candidate-preserving maps — the output has the input's length, the i-th
output is derived solely from the i-th input (transforming the singleton
of the i-th input yields the singleton of the i-th output), and the
empty input yields the empty output. -/
theorem transforms_are_candidate_preserving_maps
    (ars : List AllocationRequest) :
    (_transform_allocation_requests_dict ars).length = ars.length ∧
    (_transform_allocation_requests_list ars).length = ars.length ∧
    (∀ (i : Nat) (hi : i < ars.length)
      (hd : i < (_transform_allocation_requests_dict ars).length),
      _transform_allocation_requests_dict [ars.get ⟨i, hi⟩] =
        [(_transform_allocation_requests_dict ars).get ⟨i, hd⟩]) ∧
    (∀ (i : Nat) (hi : i < ars.length)
      (hl : i < (_transform_allocation_requests_list ars).length),
      _transform_allocation_requests_list [ars.get ⟨i, hi⟩] =
        [(_transform_allocation_requests_list ars).get ⟨i, hl⟩]) ∧
    _transform_allocation_requests_dict [] = [] ∧
    _transform_allocation_requests_list [] = [] := by
  refine ⟨by simp [_transform_allocation_requests_dict],
    by simp [_transform_allocation_requests_list], ?_, ?_, rfl, rfl⟩
  · intro i hi hd
    simp [_transform_allocation_requests_dict, List.get_eq_getElem,
      List.getElem_map]
  · intro i hi hl
    simp [_transform_allocation_requests_list, List.get_eq_getElem,
      List.getElem_map]

/-- C9 witness: the map properties applied to a two-candidate input at
index 1. -/
theorem transforms_are_candidate_preserving_maps_witness :
    (1 < ([⟨[⟨⟨"A"⟩, "VCPU", 2⟩]⟩, ⟨[⟨⟨"B"⟩, "DISK_GB", 7⟩]⟩] :
        List AllocationRequest).length) ∧
    _transform_allocation_requests_dict
        [([⟨[⟨⟨"A"⟩, "VCPU", 2⟩]⟩, ⟨[⟨⟨"B"⟩, "DISK_GB", 7⟩]⟩] :
          List AllocationRequest).get ⟨1, by decide⟩] =
      [(_transform_allocation_requests_dict
          [⟨[⟨⟨"A"⟩, "VCPU", 2⟩]⟩, ⟨[⟨⟨"B"⟩, "DISK_GB", 7⟩]⟩]).get
        ⟨1, by decide⟩] :=
  ⟨by decide,
   (transforms_are_candidate_preserving_maps
       [⟨[⟨⟨"A"⟩, "VCPU", 2⟩]⟩, ⟨[⟨⟨"B"⟩, "DISK_GB", 7⟩]⟩]).2.2.1
     1 (by decide) (by decide)⟩

/-- C10 (implicit): the keys of the transformed `provider_summaries` are
exactly the provider uuids of the input summaries, each distinct uuid
has exactly one entry (the key list has no duplicates), and the entry at
a uuid is the one contributed by the last input summary carrying it —
a later duplicate silently replaces the earlier entry. -/
theorem provider_summaries_keyed_by_uuid_last_wins
    (p_sums : List ProviderSummary) (include_traits : Bool) (u : String) :
    (u ∈ (_transform_provider_summaries p_sums include_traits).map Prod.fst ↔
      u ∈ p_sums.map (fun ps => ps.resource_provider.uuid)) ∧
    ((_transform_provider_summaries p_sums include_traits).map
      Prod.fst).Nodup ∧
    lookupAssoc u (_transform_provider_summaries p_sums include_traits) =
      (lastSummaryFor u p_sums).map (summaryEntry include_traits) := by
  refine ⟨?_, ?_, lookup_transform_provider_summaries p_sums include_traits u⟩
  · rw [transform_provider_summaries_eq_foldl]
    rw [keys_foldl_upsert_summary p_sums include_traits [] u]
    simp
  · rw [transform_provider_summaries_eq_foldl]
    exact keys_nodup_foldl_upsert_summary p_sums include_traits []
      (by simp)

end Placement
